import Mathlib

/-!
Provider registry of gofritai

A shallow embedding of `internal/providers/registry.go`: the `Provider` data
model, the package-level `Registry` table and the three accessors `GetByID`,
`GetByCategory` and `GetNoCC`, and of the `list` command of
`cmd/gofritai/main.go`, followed by the properties proved about them.

Modelling conventions

* `type Category string` is a defined string type, so any string is a
  `Category` value; it is embedded as `String`.
* `Limit.Amount` is a `float64` in the source.  Every amount of the table is
  a whole number written as an integer literal, so the field is embedded as
  `Int`; no property below computes with it.
* `Metadata map[string]string` is embedded as an association list; the table
  never sets it, which is the empty list here.
* Go strings are byte sequences compared bytewise; they are embedded as
  `String`, whose equality agrees with the bytewise one on valid UTF-8.  Every
  string of the table is ASCII.
* `*Provider` results are `Option Provider`: `nil` is `none`.  `GetByID`
  returns the address of the loop variable, a copy of the matching entry, so
  the value behind the pointer is that entry.
* A `for _, p := range xs` loop is a structural recursion over the list; a
  loop that appends to `result` carries `result` as an accumulator.
-/

namespace Providers

/-- Category of a provider (`type Category string`). -/
abbrev Category := String

def CategoryCompute : Category := "compute"
def CategoryDatabase : Category := "database"
def CategoryStorage : Category := "storage"
def CategoryLLM : Category := "llm"
def CategoryAuth : Category := "auth"
def CategoryMonitor : Category := "monitoring"
def CategoryServerless : Category := "serverless"

/-- One quantitative constraint of a free tier. -/
structure Limit where
  Resource : String
  Amount : Int
  Unit : String
  Period : String := ""
  deriving DecidableEq, Repr

/-- Quota description attached to a provider. -/
structure FreeTier where
  Description : String
  Limits : List Limit
  Duration : String
  deriving DecidableEq, Repr

/-- Provider represents a free tier service provider. -/
structure Provider where
  ID : String
  Name : String
  Category : Category
  FreeTier : FreeTier
  RequiresCC : Bool
  URL : String
  APIEndpoint : String := ""
  Metadata : List (String × String) := []
  deriving DecidableEq, Repr

/-- Registry holds all known providers. -/
def Registry : List Provider := [
  -- Compute
  { ID := "oracle-arm",
    Name := "Oracle Cloud ARM",
    Category := CategoryCompute,
    FreeTier := {
      Description := "4 OCPU + 24GB RAM forever",
      Limits := [
        { Resource := "vcpu", Amount := 4, Unit := "cores" },
        { Resource := "memory", Amount := 24, Unit := "GB" },
        { Resource := "storage", Amount := 200, Unit := "GB" } ],
      Duration := "forever" },
    RequiresCC := false,
    URL := "https://cloud.oracle.com" },
  { ID := "fly-io",
    Name := "Fly.io",
    Category := CategoryCompute,
    FreeTier := {
      Description := "3 shared VMs + 160GB transfer",
      Limits := [
        { Resource := "vms", Amount := 3, Unit := "instances" },
        { Resource := "transfer", Amount := 160, Unit := "GB", Period := "month" } ],
      Duration := "forever" },
    RequiresCC := true,
    URL := "https://fly.io" },
  { ID := "render",
    Name := "Render",
    Category := CategoryCompute,
    FreeTier := {
      Description := "750h/mo, spins down",
      Limits := [
        { Resource := "hours", Amount := 750, Unit := "hours", Period := "month" } ],
      Duration := "forever" },
    RequiresCC := false,
    URL := "https://render.com" },
  { ID := "cloudflare-workers",
    Name := "Cloudflare Workers",
    Category := CategoryServerless,
    FreeTier := {
      Description := "100k req/day + 10ms CPU",
      Limits := [
        { Resource := "requests", Amount := 100000, Unit := "requests", Period := "day" },
        { Resource := "cpu", Amount := 10, Unit := "ms" } ],
      Duration := "forever" },
    RequiresCC := false,
    URL := "https://workers.cloudflare.com" },
  -- LLM APIs
  { ID := "groq",
    Name := "Groq",
    Category := CategoryLLM,
    FreeTier := {
      Description := "30 req/min, Llama/Mixtral/Whisper",
      Limits := [
        { Resource := "requests", Amount := 30, Unit := "requests", Period := "minute" } ],
      Duration := "forever" },
    RequiresCC := false,
    URL := "https://groq.com",
    APIEndpoint := "https://api.groq.com/openai/v1" },
  { ID := "google-ai-studio",
    Name := "Google AI Studio",
    Category := CategoryLLM,
    FreeTier := {
      Description := "60 req/min, Gemini 2.5 Pro/Flash",
      Limits := [
        { Resource := "requests", Amount := 60, Unit := "requests", Period := "minute" } ],
      Duration := "forever" },
    RequiresCC := false,
    URL := "https://aistudio.google.com",
    APIEndpoint := "https://generativelanguage.googleapis.com/v1beta" },
  { ID := "openrouter",
    Name := "OpenRouter",
    Category := CategoryLLM,
    FreeTier := {
      Description := "Free models available",
      Limits := [],
      Duration := "forever" },
    RequiresCC := false,
    URL := "https://openrouter.ai",
    APIEndpoint := "https://openrouter.ai/api/v1" },
  -- Databases
  { ID := "supabase",
    Name := "Supabase",
    Category := CategoryDatabase,
    FreeTier := {
      Description := "500MB Postgres + 50k auth + realtime",
      Limits := [
        { Resource := "storage", Amount := 500, Unit := "MB" },
        { Resource := "auth_users", Amount := 50000, Unit := "users" },
        { Resource := "bandwidth", Amount := 2, Unit := "GB", Period := "month" } ],
      Duration := "forever" },
    RequiresCC := false,
    URL := "https://supabase.com" },
  { ID := "turso",
    Name := "Turso",
    Category := CategoryDatabase,
    FreeTier := {
      Description := "9GB + 500M reads",
      Limits := [
        { Resource := "storage", Amount := 9, Unit := "GB" },
        { Resource := "reads", Amount := 500000000, Unit := "reads", Period := "month" } ],
      Duration := "forever" },
    RequiresCC := false,
    URL := "https://turso.tech" },
  { ID := "upstash",
    Name := "Upstash",
    Category := CategoryDatabase,
    FreeTier := {
      Description := "10k cmd/day Redis",
      Limits := [
        { Resource := "commands", Amount := 10000, Unit := "commands", Period := "day" } ],
      Duration := "forever" },
    RequiresCC := false,
    URL := "https://upstash.com" },
  -- Storage
  { ID := "cloudflare-r2",
    Name := "Cloudflare R2",
    Category := CategoryStorage,
    FreeTier := {
      Description := "10GB storage + ZERO egress",
      Limits := [
        { Resource := "storage", Amount := 10, Unit := "GB" },
        { Resource := "egress", Amount := 0, Unit := "cost" } ],
      Duration := "forever" },
    RequiresCC := false,
    URL := "https://www.cloudflare.com/r2" },
  { ID := "backblaze-b2",
    Name := "Backblaze B2",
    Category := CategoryStorage,
    FreeTier := {
      Description := "10GB storage",
      Limits := [
        { Resource := "storage", Amount := 10, Unit := "GB" } ],
      Duration := "forever" },
    RequiresCC := false,
    URL := "https://www.backblaze.com/b2" } ]

/-- The loop of `GetByID` over a provider list: return the first element whose
`ID` equals `id`, or `nil` once the list is exhausted. -/
def getByIDLoop (id : String) : List Provider → Option Provider
  | [] => none
  | p :: rest => if p.ID = id then some p else getByIDLoop id rest

/-- GetByID returns a provider by ID. -/
def GetByID (id : String) : Option Provider :=
  getByIDLoop id Registry

/-- The loop of `GetByCategory`: each element whose `Category` equals `cat` is
appended to `result`; the accumulated `result` is returned at the end. -/
def getByCategoryLoop (cat : Category) : List Provider → List Provider → List Provider
  | [], result => result
  | p :: rest, result =>
    if p.Category = cat then getByCategoryLoop cat rest (result ++ [p])
    else getByCategoryLoop cat rest result

/-- GetByCategory returns all providers in a category. -/
def GetByCategory (cat : Category) : List Provider :=
  getByCategoryLoop cat Registry []

/-- The loop of `GetNoCC`: each element with `!p.RequiresCC` is appended to
`result`; the accumulated `result` is returned at the end. -/
def getNoCCLoop : List Provider → List Provider → List Provider
  | [], result => result
  | p :: rest, result =>
    if !p.RequiresCC then getNoCCLoop rest (result ++ [p])
    else getNoCCLoop rest result

/-- GetNoCC returns providers that don't require credit card. -/
def GetNoCC : List Provider :=
  getNoCCLoop Registry []

/-! ## The accessors with the registry as explicit state

`Mem` is the memory an accessor runs in: the package-level variable `Registry`
and the locals of the running function.  `range Registry` evaluates `Registry`
once, when the loop starts; each iteration is one step on `Mem`. -/

/-- Memory of a running accessor. -/
structure Mem where
  /-- The package-level `Registry`. -/
  Registry : List Provider
  /-- The local `var result []Provider` of the two filters. -/
  result : List Provider
  /-- The value of `return &p` once the loop of `GetByID` has executed it. -/
  returned : Option Provider
  deriving DecidableEq, Repr

/-- One iteration of the loop of `GetByID`; after `return &p` nothing more runs. -/
def getByIDStep (id : String) (m : Mem) (p : Provider) : Mem :=
  if m.returned.isSome then m
  else if p.ID = id then { m with returned := some p } else m

/-- One iteration of the loop of `GetByCategory`. -/
def getByCategoryStep (cat : Category) (m : Mem) (p : Provider) : Mem :=
  if p.Category = cat then { m with result := m.result ++ [p] } else m

/-- One iteration of the loop of `GetNoCC`. -/
def getNoCCStep (m : Mem) (p : Provider) : Mem :=
  if !p.RequiresCC then { m with result := m.result ++ [p] } else m

/-- `GetByID` run on a registry `reg`: the returned pointer (`nil` when the loop
ends without returning) and the registry afterwards. -/
def GetByIDRun (id : String) (reg : List Provider) : Option Provider × List Provider :=
  let m := reg.foldl (getByIDStep id) { Registry := reg, result := [], returned := none }
  (m.returned, m.Registry)

/-- `GetByCategory` run on a registry `reg`: the returned slice and the registry
afterwards. -/
def GetByCategoryRun (cat : Category) (reg : List Provider) :
    List Provider × List Provider :=
  let m := reg.foldl (getByCategoryStep cat) { Registry := reg, result := [], returned := none }
  (m.result, m.Registry)

/-- `GetNoCC` run on a registry `reg`: the returned slice and the registry
afterwards. -/
def GetNoCCRun (reg : List Provider) : List Provider × List Provider :=
  let m := reg.foldl getNoCCStep { Registry := reg, result := [], returned := none }
  (m.result, m.Registry)

end Providers

/-! ## The `list` command (`cmd/gofritai/main.go`)

Standard output is embedded as the text written to it: `fmt.Println(s)` writes
`s` and a newline, and the verb `%-20s` writes its argument followed by spaces
up to a width of 20 characters (no truncation). -/

namespace Main

/-- Row of the table printed by `list` (the `Provider` type of package `main`). -/
structure Provider where
  Name : String
  Quota : String
  CC : String
  deriving DecidableEq, Repr

/-- The verb `%-Ns`: `s` left-justified in a field of `width` characters. -/
def padRight (width : Nat) (s : String) : String :=
  s ++ String.mk (List.replicate (width - s.length) (Char.ofNat 32))

/-- The loop of `printCategory`: one formatted line per provider. -/
def printCategoryLoop : List Provider → String
  | [] => ""
  | p :: rest =>
    "   " ++ padRight 20 p.Name ++ " " ++ padRight 35 p.Quota ++ " [" ++ p.CC ++ "]\n"
      ++ printCategoryLoop rest

/-- What `printCategory(name, providers)` writes: the heading line, one line per
provider, and an empty line. -/
def printCategory (name : String) (providers : List Provider) : String :=
  "📦 " ++ name ++ "\n" ++ printCategoryLoop providers ++ "\n"

/-- The three `printCategory` calls of `listCmd`, in order, each with its heading
and its literal provider rows. -/
def listCmdCalls : List (String × List Provider) := [
  ("COMPUTE", [
    ⟨"Oracle Cloud ARM", "4 OCPU + 24GB RAM", "No CC"⟩,
    ⟨"Fly.io", "3 shared VMs + 160GB", "CC required"⟩,
    ⟨"Railway", "$5/mo credit", "No CC"⟩,
    ⟨"Render", "750h/mo", "No CC"⟩,
    ⟨"Cloudflare Workers", "100k req/day", "No CC"⟩ ]),
  -- LLM APIs managed by gogatewai, not here
  ("DATABASES", [
    ⟨"Supabase", "500MB Postgres + Auth", "No CC"⟩,
    ⟨"Turso", "9GB + 500M reads", "No CC"⟩,
    ⟨"Upstash", "10k cmd/day Redis", "No CC"⟩,
    ⟨"Neon", "3GB Postgres", "No CC"⟩,
    ⟨"MongoDB Atlas", "512MB", "No CC"⟩ ]),
  ("STORAGE", [
    ⟨"Cloudflare R2", "10GB + 0 egress", "No CC"⟩,
    ⟨"Backblaze B2", "10GB", "No CC"⟩ ]) ]

/-- What a sequence of `printCategory` calls writes. -/
def printCalls : List (String × List Provider) → String
  | [] => ""
  | c :: rest => printCategory c.1 c.2 ++ printCalls rest

/-- What the `Run` function of `listCmd` writes to standard output. -/
def listCmd : String :=
  "🆓 Supported Free Tier Providers\n" ++ "================================\n" ++ "\n"
    ++ printCalls listCmdCalls

/-! ### Reading the printed table

The functions below read a printed text back, line by line, the way the table
is laid out on the terminal: a heading is a line that starts with the marker
"📦 ", the rows under a heading are the lines after it up to the next empty
line, and the name of a row is what stands in its first column (three spaces of
indentation, then 20 characters), without the padding. -/

/-- The lines of a text: the pieces between its newline characters, `cur` being
the line read so far. -/
def splitLines : List Char → List Char → List (List Char)
  | [], cur => [cur]
  | c :: cs, cur =>
    if c = Char.ofNat 10 then cur :: splitLines cs [] else splitLines cs (cur ++ [c])

/-- The lines of the text `out`. -/
def printedLines (out : String) : List (List Char) :=
  splitLines out.data []

/-- The headings of the text `out`, in the order printed: for each line that
starts with the marker "📦 ", the rest of the line. -/
def headingsPrinted (out : String) : List String :=
  (printedLines out).filterMap
    (fun l => if l.take 2 = "📦 ".data then some (String.mk (l.drop 2)) else none)

/-- The lines printed under the heading `heading`: those after the first line
"📦 heading", up to the next empty line. -/
def rowsUnder (heading : String) (ls : List (List Char)) : List (List Char) :=
  ((ls.dropWhile (fun l => decide (l ≠ ("📦 " ++ heading).data))).drop 1).takeWhile
    (fun l => decide (l ≠ []))

/-- The first column of a row: characters 3 to 22 of the line, trailing spaces
removed. -/
def nameColumn (line : List Char) : String :=
  String.mk ((((line.drop 3).take 20).reverse.dropWhile
    (fun c => decide (c = Char.ofNat 32))).reverse)

/-- The provider names that stand under the heading `heading` in the text
`listCmd` prints. -/
def namesPrintedUnder (heading : String) : List String :=
  (rowsUnder heading (printedLines listCmd)).map nameColumn

end Main

namespace Providers

/-! ## The loops as list operations -/

theorem getByIDLoop_found (id : String) (l : List Provider)
    (h : ∃ p ∈ l, p.ID = id) : ∃ q, getByIDLoop id l = some q ∧ q.ID = id := by
  induction l with
  | nil => obtain ⟨p, hp, _⟩ := h; cases hp
  | cons a rest ih =>
    by_cases ha : a.ID = id
    · exact ⟨a, by simp [getByIDLoop, ha], ha⟩
    · obtain ⟨p, hp, hpid⟩ := h
      rcases List.mem_cons.mp hp with rfl | hmem
      · exact absurd hpid ha
      · obtain ⟨q, hq, hqid⟩ := ih ⟨p, hmem, hpid⟩
        exact ⟨q, by simp [getByIDLoop, ha, hq], hqid⟩

theorem getByIDLoop_absent (id : String) (l : List Provider)
    (h : ∀ p ∈ l, p.ID ≠ id) : getByIDLoop id l = none := by
  induction l with
  | nil => rfl
  | cons a rest ih =>
    have ha : a.ID ≠ id := h a (List.mem_cons_self a rest)
    have hrest : ∀ p ∈ rest, p.ID ≠ id := fun p hp => h p (List.mem_cons_of_mem a hp)
    simp [getByIDLoop, ha, ih hrest]

theorem getByCategoryLoop_eq (cat : Category) (l result : List Provider) :
    getByCategoryLoop cat l result
      = result ++ l.filter (fun p => decide (p.Category = cat)) := by
  induction l generalizing result with
  | nil => simp [getByCategoryLoop]
  | cons a rest ih =>
    by_cases ha : a.Category = cat
    · simp [getByCategoryLoop, ha, ih]
    · simp [getByCategoryLoop, ha, ih]

theorem getNoCCLoop_eq (l result : List Provider) :
    getNoCCLoop l result = result ++ l.filter (fun p => !p.RequiresCC) := by
  induction l generalizing result with
  | nil => simp [getNoCCLoop]
  | cons a rest ih =>
    cases ha : a.RequiresCC
    · simp [getNoCCLoop, ha, ih]
    · simp [getNoCCLoop, ha, ih]

theorem GetByCategory_eq_filter (cat : Category) :
    GetByCategory cat = Registry.filter (fun p => decide (p.Category = cat)) := by
  simp [GetByCategory, getByCategoryLoop_eq]

theorem GetNoCC_eq_filter : GetNoCC = Registry.filter (fun p => !p.RequiresCC) := by
  simp [GetNoCC, getNoCCLoop_eq]

theorem Registry_ids_nodup : (Registry.map (fun p => p.ID)).Nodup := by decide

theorem Registry_nodup : Registry.Nodup :=
  List.Nodup.of_map _ Registry_ids_nodup

/-! ## Lookup by ID -/

/-- C1: for every id carried by at least one entry of `Registry`, `GetByID id`
returns a provider (not `nil`) and that provider's `ID` equals `id`. -/
theorem GetByID_present (id : String) (h : ∃ p ∈ Registry, p.ID = id) :
    ∃ q, GetByID id = some q ∧ q.ID = id :=
  getByIDLoop_found id Registry h

theorem GetByID_present_witness :
    (∃ p ∈ Registry, p.ID = "turso") ∧ ∃ q, GetByID "turso" = some q ∧ q.ID = "turso" :=
  ⟨by decide, GetByID_present "turso" (by decide)⟩

/-- C2: for every id carried by no entry of `Registry`, `GetByID id` is the
not-found result `nil` (an ordinary value, the function has no failure path);
in particular `GetByID "does-not-exist"` is `nil`. -/
theorem GetByID_absent :
    (∀ id : String, (∀ p ∈ Registry, p.ID ≠ id) → GetByID id = none)
      ∧ GetByID "does-not-exist" = none :=
  ⟨fun id h => getByIDLoop_absent id Registry h, by decide⟩

theorem GetByID_absent_witness :
    (∀ p ∈ Registry, p.ID ≠ "railway") ∧ GetByID "railway" = none :=
  ⟨by decide, GetByID_absent.1 "railway" (by decide)⟩

/-! ## Filter by category -/

/-- C3: for every category value `cat`, `GetByCategory cat` is exactly the
sequence of the `Registry` entries whose `Category` equals `cat`, in
declaration order: it is the order-preserving selection of those entries, every
returned record has `Category = cat`, every `Registry` entry with
`Category = cat` occurs in it exactly once, and the result is a subsequence of
`Registry` (relative order kept). -/
theorem GetByCategory_exact (cat : Category) :
    GetByCategory cat = Registry.filter (fun p => decide (p.Category = cat))
      ∧ (∀ p ∈ GetByCategory cat, p ∈ Registry ∧ p.Category = cat)
      ∧ (∀ p ∈ Registry, p.Category = cat → List.count p (GetByCategory cat) = 1)
      ∧ List.Sublist (GetByCategory cat) Registry := by
  rw [GetByCategory_eq_filter]
  refine ⟨rfl, ?_, ?_, List.filter_sublist Registry⟩
  · intro p hp
    simpa using hp
  · intro p hp hcat
    have hmem : p ∈ Registry.filter (fun p => decide (p.Category = cat)) := by
      simp [hp, hcat]
    exact List.count_eq_one_of_mem (Registry_nodup.filter _) hmem

theorem GetByCategory_exact_witness :
    List.count (Registry.get ⟨8, by decide⟩) (GetByCategory CategoryDatabase) = 1 :=
  (GetByCategory_exact CategoryDatabase).2.2.1 (Registry.get ⟨8, by decide⟩)
    (by decide) (by decide)

/-- C4: for every category value `cat`, the number of records returned by
`GetByCategory cat` plus the number of `Registry` entries whose `Category`
differs from `cat` equals the number of `Registry` entries. -/
theorem GetByCategory_count (cat : Category) :
    (GetByCategory cat).length + Registry.countP (fun p => decide (p.Category ≠ cat))
      = Registry.length := by
  rw [GetByCategory_eq_filter, ← List.countP_eq_length_filter]
  have h := List.length_eq_countP_add_countP (fun p : Provider => decide (p.Category = cat))
    Registry
  simpa using h.symm

/-! ## Filter by no credit card -/

/-- C5: `GetNoCC` returns exactly the `Registry` entries whose `RequiresCC` flag
is false, each once, in declaration order: it is the order-preserving selection
of those entries, every returned record is a `Registry` entry with the flag
false, every `Registry` entry with the flag false occurs exactly once, the
result is a subsequence of `Registry`, and no record with the flag true is
returned. -/
theorem GetNoCC_exact :
    GetNoCC = Registry.filter (fun p => !p.RequiresCC)
      ∧ (∀ p ∈ GetNoCC, p ∈ Registry ∧ p.RequiresCC = false)
      ∧ (∀ p ∈ Registry, p.RequiresCC = false → List.count p GetNoCC = 1)
      ∧ List.Sublist GetNoCC Registry
      ∧ (∀ p : Provider, p.RequiresCC = true → p ∉ GetNoCC) := by
  rw [GetNoCC_eq_filter]
  refine ⟨rfl, ?_, ?_, List.filter_sublist Registry, ?_⟩
  · intro p hp
    simpa using hp
  · intro p hp hcc
    have hmem : p ∈ Registry.filter (fun p => !p.RequiresCC) := by
      simp [hp, hcc]
    exact List.count_eq_one_of_mem (Registry_nodup.filter _) hmem
  · intro p hcc hp
    simp [hcc] at hp

theorem GetNoCC_exact_witness :
    List.count (Registry.get ⟨0, by decide⟩) GetNoCC = 1
      ∧ Registry.get ⟨1, by decide⟩ ∉ GetNoCC :=
  ⟨GetNoCC_exact.2.2.1 (Registry.get ⟨0, by decide⟩) (by decide) (by decide),
   GetNoCC_exact.2.2.2.2 (Registry.get ⟨1, by decide⟩) (by decide)⟩

/-- C6: the result of `GetNoCC` and the `Registry` entries with
`RequiresCC = true` are disjoint and together make up the whole `Registry`:
no provider is in both, a provider is a `Registry` entry exactly when it is in
one of the two, and the two lengths add up to the length of `Registry`. -/
theorem GetNoCC_partition :
    (∀ p : Provider, ¬ (p ∈ GetNoCC ∧ p ∈ Registry.filter (fun q => q.RequiresCC)))
      ∧ (∀ p : Provider,
          p ∈ Registry ↔ (p ∈ GetNoCC ∨ p ∈ Registry.filter (fun q => q.RequiresCC)))
      ∧ GetNoCC.length + (Registry.filter (fun q => q.RequiresCC)).length
          = Registry.length := by
  rw [GetNoCC_eq_filter]
  refine ⟨?_, ?_, ?_⟩
  · intro p hp
    simp at hp
    rw [hp.1.2] at hp
    exact absurd hp.2.2 (by decide)
  · intro p
    cases hcc : p.RequiresCC <;> simp [hcc]
  · have h := List.length_eq_countP_add_countP (fun p : Provider => !p.RequiresCC) Registry
    simp only [List.countP_eq_length_filter] at h
    simpa using h.symm

/-! ## Concrete scenarios -/

/-- C7: `GetByCategory CategoryLLM` returns exactly three records, whose IDs are
"groq", "google-ai-studio", "openrouter", in that order. -/
theorem GetByCategory_llm :
    (GetByCategory CategoryLLM).length = 3
      ∧ (GetByCategory CategoryLLM).map (fun p => p.ID)
          = ["groq", "google-ai-studio", "openrouter"] := by
  decide

/-- C8: `GetByID "oracle-arm"` returns a provider with `Name` "Oracle Cloud ARM",
`Category` equal to `CategoryCompute`, which is the string "compute", and
`RequiresCC` false. -/
theorem GetByID_oracle_arm :
    ∃ p, GetByID "oracle-arm" = some p
      ∧ p.Name = "Oracle Cloud ARM"
      ∧ p.Category = CategoryCompute
      ∧ CategoryCompute = "compute"
      ∧ p.RequiresCC = false :=
  ⟨Registry.get ⟨0, by decide⟩, by decide, by decide, by decide, by decide, by decide⟩

/-! ## Invariants of the table -/

/-- C9: provider IDs are unique across `Registry`: entries at two distinct
positions have different IDs. -/
theorem Registry_ids_unique (i j : Fin Registry.length) (h : i ≠ j) :
    (Registry.get i).ID ≠ (Registry.get j).ID := by
  intro hid
  apply h
  have hinj := List.nodup_iff_injective_get.mp Registry_ids_nodup
  have hlen : (Registry.map (fun p => p.ID)).length = Registry.length := List.length_map _ _
  have := @hinj ⟨i.1, by rw [hlen]; exact i.2⟩ ⟨j.1, by rw [hlen]; exact j.2⟩
    (by simpa using hid)
  exact Fin.ext (by simpa using congrArg Fin.val this)

theorem Registry_ids_unique_witness :
    (Registry.get ⟨0, by decide⟩).ID ≠ (Registry.get ⟨1, by decide⟩).ID :=
  Registry_ids_unique ⟨0, by decide⟩ ⟨1, by decide⟩ (by decide)

/-- C10: every entry of `Registry` has a `Category` that is one of the seven
constants `CategoryCompute`, `CategoryDatabase`, `CategoryStorage`,
`CategoryLLM`, `CategoryAuth`, `CategoryMonitor`, `CategoryServerless`, whose
values are "compute", "database", "storage", "llm", "auth", "monitoring",
"serverless". -/
theorem Registry_category_enumerated :
    [CategoryCompute, CategoryDatabase, CategoryStorage, CategoryLLM, CategoryAuth,
        CategoryMonitor, CategoryServerless]
      = ["compute", "database", "storage", "llm", "auth", "monitoring", "serverless"]
      ∧ ∀ p ∈ Registry, p.Category ∈ [CategoryCompute, CategoryDatabase, CategoryStorage,
          CategoryLLM, CategoryAuth, CategoryMonitor, CategoryServerless] := by
  refine ⟨rfl, ?_⟩
  decide

/-- C12: for every category value `cat` that no `Registry` entry carries,
`GetByCategory cat` is the empty sequence, of length 0 (a value, the function
has no failure path); in particular `GetByCategory CategoryAuth` and
`GetByCategory CategoryMonitor` are empty. -/
theorem GetByCategory_empty :
    (∀ cat : Category, (∀ p ∈ Registry, p.Category ≠ cat) →
        GetByCategory cat = [] ∧ (GetByCategory cat).length = 0)
      ∧ GetByCategory CategoryAuth = []
      ∧ GetByCategory CategoryMonitor = [] := by
  refine ⟨?_, by decide, by decide⟩
  intro cat h
  have hnil : GetByCategory cat = [] := by
    rw [GetByCategory_eq_filter, List.filter_eq_nil_iff]
    intro p hp
    simpa using h p hp
  exact ⟨hnil, by rw [hnil]; rfl⟩

theorem GetByCategory_empty_witness :
    (∀ p ∈ Registry, p.Category ≠ "cdn")
      ∧ GetByCategory "cdn" = [] ∧ (GetByCategory "cdn").length = 0 :=
  ⟨by decide, GetByCategory_empty.1 "cdn" (by decide)⟩

/-- C13: every entry of `Registry` has a `FreeTier.Duration` that is one of
"forever", "12mo", "trial". -/
theorem Registry_duration_enumerated :
    ∀ p ∈ Registry, p.FreeTier.Duration ∈ ["forever", "12mo", "trial"] := by
  decide

theorem Registry_duration_enumerated_witness :
    (Registry.get ⟨3, by decide⟩).FreeTier.Duration ∈ ["forever", "12mo", "trial"] :=
  Registry_duration_enumerated (Registry.get ⟨3, by decide⟩) (by decide)

/-! ## First match and round trip -/

/-- C14: first match wins.  For the lookup loop of `GetByID` run over an
arbitrary provider list `l` (duplicates allowed) and every `id` held by some
element of `l`, the result is the element at the smallest position whose `ID`
equals `id`: no element before the returned one has that `ID`. -/
theorem getByIDLoop_first_match (l : List Provider) (id : String)
    (h : ∃ p ∈ l, p.ID = id) :
    ∃ i : Fin l.length, getByIDLoop id l = some (l.get i) ∧ (l.get i).ID = id
      ∧ ∀ j : Fin l.length, j < i → (l.get j).ID ≠ id := by
  induction l with
  | nil => obtain ⟨p, hp, _⟩ := h; cases hp
  | cons a rest ih =>
    by_cases ha : a.ID = id
    · refine ⟨⟨0, by simp⟩, by simp [getByIDLoop, ha], by simpa using ha, ?_⟩
      intro j hj
      exact absurd hj (Nat.not_lt_zero _)
    · have hrest : ∃ p ∈ rest, p.ID = id := by
        obtain ⟨p, hp, hpid⟩ := h
        rcases List.mem_cons.mp hp with rfl | hmem
        · exact absurd hpid ha
        · exact ⟨p, hmem, hpid⟩
      obtain ⟨i, hi, hid, hmin⟩ := ih hrest
      refine ⟨⟨i.1 + 1, by simp⟩, ?_, ?_, ?_⟩
      · simpa [getByIDLoop, ha] using hi
      · simpa using hid
      · rintro ⟨j, hj⟩ hlt
        cases j with
        | zero => simpa using ha
        | succ k =>
          have hk : k < rest.length := by simpa using hj
          have := hmin ⟨k, hk⟩ (by
            have : k + 1 < i.1 + 1 := hlt
            exact Fin.mk_lt_of_lt_val (by omega))
          simpa using this

theorem getByIDLoop_first_match_witness :
    (∃ p ∈ Registry ++ Registry, p.ID = "groq")
      ∧ ∃ i : Fin (Registry ++ Registry).length,
          getByIDLoop "groq" (Registry ++ Registry) = some ((Registry ++ Registry).get i)
            ∧ ((Registry ++ Registry).get i).ID = "groq"
            ∧ ∀ j : Fin (Registry ++ Registry).length,
                j < i → ((Registry ++ Registry).get j).ID ≠ "groq" :=
  ⟨by decide, getByIDLoop_first_match (Registry ++ Registry) "groq" (by decide)⟩

theorem getByIDLoop_self (l : List Provider) (hl : (l.map (fun p => p.ID)).Nodup)
    (p : Provider) (hp : p ∈ l) : getByIDLoop p.ID l = some p := by
  induction l with
  | nil => cases hp
  | cons a rest ih =>
    rw [List.map_cons, List.nodup_cons] at hl
    rcases List.mem_cons.mp hp with rfl | hmem
    · simp [getByIDLoop]
    · have hne : a.ID ≠ p.ID := by
        intro heq
        exact hl.1 (heq ▸ List.mem_map_of_mem (fun p => p.ID) hmem)
      simp [getByIDLoop, hne, ih hl.2 hmem]

/-- C16: lookup round trip.  For every entry `p` of `Registry`, `GetByID p.ID`
returns a provider equal to `p` in every field. -/
theorem GetByID_round_trip (p : Provider) (hp : p ∈ Registry) :
    GetByID p.ID = some p :=
  getByIDLoop_self Registry Registry_ids_nodup p hp

theorem GetByID_round_trip_witness :
    GetByID (Registry.get ⟨5, by decide⟩).ID = some (Registry.get ⟨5, by decide⟩) :=
  GetByID_round_trip (Registry.get ⟨5, by decide⟩) (by decide)

/-! ## No side effect on the registry -/

theorem foldl_getByIDStep (id : String) (l : List Provider) (m : Mem) :
    (l.foldl (getByIDStep id) m).Registry = m.Registry
      ∧ (l.foldl (getByIDStep id) m).returned
          = if m.returned.isSome then m.returned else getByIDLoop id l := by
  induction l generalizing m with
  | nil => cases h : m.returned <;> simp [getByIDLoop, h]
  | cons a rest ih =>
    rw [List.foldl_cons]
    obtain ⟨h1, h2⟩ := ih (getByIDStep id m a)
    rw [h1, h2]
    cases hr : m.returned with
    | some q => simp [getByIDStep, hr]
    | none =>
      by_cases ha : a.ID = id
      · simp [getByIDStep, hr, ha, getByIDLoop]
      · simp [getByIDStep, hr, ha, getByIDLoop]

theorem foldl_getByCategoryStep (cat : Category) (l : List Provider) (m : Mem) :
    (l.foldl (getByCategoryStep cat) m).Registry = m.Registry
      ∧ (l.foldl (getByCategoryStep cat) m).result = getByCategoryLoop cat l m.result := by
  induction l generalizing m with
  | nil => simp [getByCategoryLoop]
  | cons a rest ih =>
    rw [List.foldl_cons]
    obtain ⟨h1, h2⟩ := ih (getByCategoryStep cat m a)
    rw [h1, h2]
    by_cases ha : a.Category = cat
    · simp [getByCategoryStep, ha, getByCategoryLoop]
    · simp [getByCategoryStep, ha, getByCategoryLoop]

theorem foldl_getNoCCStep (l : List Provider) (m : Mem) :
    (l.foldl getNoCCStep m).Registry = m.Registry
      ∧ (l.foldl getNoCCStep m).result = getNoCCLoop l m.result := by
  induction l generalizing m with
  | nil => simp [getNoCCLoop]
  | cons a rest ih =>
    rw [List.foldl_cons]
    obtain ⟨h1, h2⟩ := ih (getNoCCStep m a)
    rw [h1, h2]
    cases ha : a.RequiresCC
    · simp [getNoCCStep, ha, getNoCCLoop]
    · simp [getNoCCStep, ha, getNoCCLoop]

/-- C15: `GetByID`, `GetByCategory` and `GetNoCC` have no side effect on the
registry.  With the registry as explicit state, for every registry value `reg`
and every input, the registry after each of the three operations equals the
registry before it, and the value each returns is that of the accessor; run on
the table `Registry` they return `GetByID id`, `GetByCategory cat`, `GetNoCC`
and leave `Registry` as it was. -/
theorem accessors_preserve_registry (reg : List Provider) (id : String) (cat : Category) :
    GetByIDRun id reg = (getByIDLoop id reg, reg)
      ∧ GetByCategoryRun cat reg = (getByCategoryLoop cat reg [], reg)
      ∧ GetNoCCRun reg = (getNoCCLoop reg [], reg)
      ∧ GetByIDRun id Registry = (GetByID id, Registry)
      ∧ GetByCategoryRun cat Registry = (GetByCategory cat, Registry)
      ∧ GetNoCCRun Registry = (GetNoCC, Registry) := by
  have hid : ∀ r : List Provider, GetByIDRun id r = (getByIDLoop id r, r) := by
    intro r
    obtain ⟨h1, h2⟩ := foldl_getByIDStep id r ⟨r, [], none⟩
    simp only [GetByIDRun, h1, h2]
    simp
  have hcat : ∀ r : List Provider, GetByCategoryRun cat r = (getByCategoryLoop cat r [], r) := by
    intro r
    obtain ⟨h1, h2⟩ := foldl_getByCategoryStep cat r ⟨r, [], none⟩
    simp only [GetByCategoryRun, h1, h2]
  have hcc : ∀ r : List Provider, GetNoCCRun r = (getNoCCLoop r [], r) := by
    intro r
    obtain ⟨h1, h2⟩ := foldl_getNoCCStep r ⟨r, [], none⟩
    simp only [GetNoCCRun, h1, h2]
  exact ⟨hid reg, hcat reg, hcc reg, hid Registry, hcat Registry, hcc Registry⟩

/-! ## Shape of the table -/

theorem Registry_category_mem :
    ∀ p ∈ Registry, p.Category ∈ [CategoryCompute, CategoryDatabase, CategoryStorage,
      CategoryLLM, CategoryAuth, CategoryMonitor, CategoryServerless] := by
  decide

/-- C17: the seven category constants partition the registry under
`GetByCategory`: the lengths of `GetByCategory c` over the seven constants sum
to the length of `Registry`, which is 12, the seven constants are pairwise
different, and every `Registry` entry is in `GetByCategory c` for exactly one
of them. -/
theorem GetByCategory_partition :
    (([CategoryCompute, CategoryDatabase, CategoryStorage, CategoryLLM, CategoryAuth,
          CategoryMonitor, CategoryServerless].map
        (fun c => (GetByCategory c).length)).sum = Registry.length)
      ∧ Registry.length = 12
      ∧ [CategoryCompute, CategoryDatabase, CategoryStorage, CategoryLLM, CategoryAuth,
          CategoryMonitor, CategoryServerless].Nodup
      ∧ ∀ p ∈ Registry, ∃! c : Category,
          c ∈ [CategoryCompute, CategoryDatabase, CategoryStorage, CategoryLLM, CategoryAuth,
            CategoryMonitor, CategoryServerless] ∧ p ∈ GetByCategory c := by
  refine ⟨by decide, by decide, by decide, ?_⟩
  intro p hp
  refine ⟨p.Category, ⟨Registry_category_mem p hp, ?_⟩, ?_⟩
  · rw [GetByCategory_eq_filter]
    simp [hp]
  · rintro c ⟨_, hc⟩
    rw [GetByCategory_eq_filter] at hc
    have hcat : p.Category = c := by simpa using (List.mem_filter.mp hc).2
    exact hcat.symm

theorem GetByCategory_partition_witness :
    ∃! c : Category,
      c ∈ [CategoryCompute, CategoryDatabase, CategoryStorage, CategoryLLM, CategoryAuth,
        CategoryMonitor, CategoryServerless] ∧ Registry.get ⟨3, by decide⟩ ∈ GetByCategory c :=
  GetByCategory_partition.2.2.2 (Registry.get ⟨3, by decide⟩) (by decide)

/-- C18: `GetNoCC` returns every `Registry` entry except the one with ID
"fly-io": its result has 11 records, it is `Registry` with the entry at the
position of "fly-io" removed and the order otherwise kept, which is also
`Registry` without the entries of ID "fly-io", and "fly-io" is an entry of
`Registry` and the only one with `RequiresCC = true`. -/
theorem GetNoCC_all_but_fly_io :
    GetNoCC.length = 11
      ∧ (Registry.get ⟨1, by decide⟩).ID = "fly-io"
      ∧ GetNoCC = Registry.eraseIdx 1
      ∧ GetNoCC = Registry.filter (fun p => decide (p.ID ≠ "fly-io"))
      ∧ ∀ p ∈ Registry, (p.RequiresCC = true ↔ p.ID = "fly-io") := by
  refine ⟨by decide, by decide, by decide, by decide, by decide⟩

theorem GetNoCC_all_but_fly_io_witness :
    ((Registry.get ⟨1, by decide⟩).RequiresCC = true
        ↔ (Registry.get ⟨1, by decide⟩).ID = "fly-io")
      ∧ ((Registry.get ⟨2, by decide⟩).RequiresCC = true
        ↔ (Registry.get ⟨2, by decide⟩).ID = "fly-io") :=
  ⟨GetNoCC_all_but_fly_io.2.2.2.2 (Registry.get ⟨1, by decide⟩) (by decide),
   GetNoCC_all_but_fly_io.2.2.2.2 (Registry.get ⟨2, by decide⟩) (by decide)⟩

end Providers

namespace Main

/-! ## The `list` command and the registry -/

/-- C11, as stated, fails on the code: `listCmd` prints literal rows and never
calls `GetByCategory`.  The registry entry at position 4 has `Name` "Groq",
which occurs nowhere in what `listCmd` prints; and under the heading COMPUTE
the names that stand in the printed text are "Oracle Cloud ARM", "Fly.io",
"Railway", "Render", "Cloudflare Workers", while `GetByCategory CategoryCompute`
holds the names "Oracle Cloud ARM", "Fly.io", "Render" (no registry entry at all
is named "Railway"). -/
theorem listCmd_not_from_registry :
    (Providers.Registry.get ⟨4, by decide⟩).Name = "Groq"
      ∧ ¬ ("Groq".data <:+: listCmd.data)
      ∧ namesPrintedUnder "COMPUTE"
          = ["Oracle Cloud ARM", "Fly.io", "Railway", "Render", "Cloudflare Workers"]
      ∧ (Providers.GetByCategory Providers.CategoryCompute).map (fun p => p.Name)
          = ["Oracle Cloud ARM", "Fly.io", "Render"]
      ∧ ∀ p ∈ Providers.Registry, p.Name ≠ "Railway" := by
  refine ⟨by decide, by decide!, by decide!, by decide, by decide⟩

/-- C11, amended: `listCmd` prints a fixed table.  The headings of the printed
text are COMPUTE, DATABASES and STORAGE, in that order, and the names standing
under them in the printed text are "Oracle Cloud ARM", "Fly.io", "Railway",
"Render", "Cloudflare Workers" under COMPUTE, "Supabase", "Turso", "Upstash",
"Neon", "MongoDB Atlas" under DATABASES, and "Cloudflare R2", "Backblaze B2"
under STORAGE; these are the names of the rows passed to `printCategory`.  The
`Name` of every `Registry` entry whose `Category` is not `CategoryLLM` occurs in
the text printed, and the `Name` of no entry of category `CategoryLLM` does.
Under the headings COMPUTE, DATABASES and STORAGE the names of the records
`GetByCategory` returns for `CategoryCompute`, `CategoryDatabase` and
`CategoryStorage` occur among the names printed, in the same relative order;
under STORAGE they are exactly the names printed. -/
theorem listCmd_fixed_table :
    headingsPrinted listCmd = ["COMPUTE", "DATABASES", "STORAGE"]
      ∧ namesPrintedUnder "COMPUTE"
          = ["Oracle Cloud ARM", "Fly.io", "Railway", "Render", "Cloudflare Workers"]
      ∧ namesPrintedUnder "DATABASES"
          = ["Supabase", "Turso", "Upstash", "Neon", "MongoDB Atlas"]
      ∧ namesPrintedUnder "STORAGE" = ["Cloudflare R2", "Backblaze B2"]
      ∧ listCmdCalls.map (fun c => (c.1, c.2.map (fun q => q.Name)))
          = (headingsPrinted listCmd).map (fun h => (h, namesPrintedUnder h))
      ∧ (∀ p ∈ Providers.Registry,
          p.Category ≠ Providers.CategoryLLM → p.Name.data <:+: listCmd.data)
      ∧ (∀ p ∈ Providers.Registry,
          p.Category = Providers.CategoryLLM → ¬ (p.Name.data <:+: listCmd.data))
      ∧ List.Sublist ((Providers.GetByCategory Providers.CategoryCompute).map (fun p => p.Name))
          (namesPrintedUnder "COMPUTE")
      ∧ List.Sublist ((Providers.GetByCategory Providers.CategoryDatabase).map (fun p => p.Name))
          (namesPrintedUnder "DATABASES")
      ∧ (Providers.GetByCategory Providers.CategoryStorage).map (fun p => p.Name)
          = namesPrintedUnder "STORAGE" := by
  refine ⟨by decide!, by decide!, by decide!, by decide!, by decide!, by decide!, by decide!,
    by decide!, by decide!, by decide!⟩

theorem listCmd_fixed_table_witness :
    ("Render".data <:+: listCmd.data) ∧ ¬ ("OpenRouter".data <:+: listCmd.data) :=
  ⟨listCmd_fixed_table.2.2.2.2.2.1 (Providers.Registry.get ⟨2, by decide⟩)
      (by decide) (by decide),
   listCmd_fixed_table.2.2.2.2.2.2.1 (Providers.Registry.get ⟨6, by decide⟩)
      (by decide) (by decide)⟩

end Main
